import Mathlib

/-!
Verification of the `Streamtom3u` stream extractor (`src/stream_extractor.py`).

The script reads `links.txt` (lines of the form `URL | Category | Name`),
resolves a playable media URL for each line (Piped API, then Invidious API,
then yt-dlp, then a static fallback URL) and writes an M3U playlist.

The embedding below is a shallow one: network responses, subprocess
outcomes and filesystem facts are passed in explicitly as data, and each
Python function becomes a total Lean function over those inputs.
-/

/-! ### Python-style string primitives

Python `str.strip`, `str.split`, substring containment (`in`) and
`str.lower` are modelled at the character-list level.  `lowerChar` models
`str.lower` on the ASCII range (the only range that matters downstream,
since `normalize_id` keeps only `[a-z0-9]`).
-/

/-- Whitespace characters removed by Python `str.strip()` (ASCII range). -/
def pySpace (c : Char) : Bool :=
  c = ' ' || c = '\t' || c = '\n' || c = '\r' || c.toNat = 11 || c.toNat = 12

/-- Strip `pySpace` characters from both ends of a character list. -/
def stripData (l : List Char) : List Char :=
  ((l.dropWhile pySpace).reverse.dropWhile pySpace).reverse

/-- Model of Python `str.strip()`. -/
def pyStrip (s : String) : String := ⟨stripData s.data⟩

/-- Split a character list on a separator character, keeping empty pieces,
exactly like Python `str.split(sep)` for a one-character separator. -/
def splitOnChar (sep : Char) : List Char → List (List Char)
  | [] => [[]]
  | c :: rest =>
    if c = sep then [] :: splitOnChar sep rest
    else
      match splitOnChar sep rest with
      | [] => [[c]]
      | h :: t => (c :: h) :: t

/-- Model of Python `s.split(sep)` for a one-character separator. -/
def strSplitOn (sep : Char) (s : String) : List String :=
  (splitOnChar sep s.data).map (fun l => (⟨l⟩ : String))

/-- Model of Python `needle in hay` substring containment. -/
def containsSub (hay needle : String) : Bool :=
  hay.data.tails.any (fun t => needle.data.isPrefixOf t)

/-- ASCII lower-casing of one character (model of `str.lower` per char). -/
def lowerChar (c : Char) : Char :=
  if 'A' ≤ c ∧ c ≤ 'Z' then Char.ofNat (c.toNat + 32) else c

/-- Characters kept by the regex `[^a-z0-9]` removal in `normalize_id`. -/
def isIdChar (c : Char) : Bool :=
  ('a' ≤ c && c ≤ 'z') || ('0' ≤ c && c ≤ '9')

/-- Truthiness of an optional Python string: `None` and `""` are falsy. -/
def pyTruthy : Option String → Bool
  | none => false
  | some s => s ≠ ""

/-! ### Configuration constants of the script -/

/-- Config `INPUT_FILE = "links.txt"`. -/
def INPUT_FILE : String := "links.txt"

/-- Config `OUTPUT_FILE = "streams.m3u"`. -/
def OUTPUT_FILE : String := "streams.m3u"

/-- Config `FALLBACK_URL` (static fallback stream). -/
def FALLBACK_URL : String :=
  "https://raw.githubusercontent.com/fakuz/Streamtom3u/refs/heads/main/fallback/fallback.m3u8"

/-- Config `EPG_URLS` (guide URLs put in the `url-tvg` header attribute). -/
def EPG_URLS : List String := ["https://iptv-org.github.io/epg/guides/es.xml"]

/-! ### Pure helpers of the script -/

/-- Model of `normalize_id`: `re.sub(r'[^a-z0-9]', '', text.lower())`. -/
def normalize_id (text : String) : String :=
  ⟨(text.data.map lowerChar).filter isIdChar⟩

/-- Result of `parse_line` (Python returns the tuple
`(url, category, channel_name)`). -/
structure SourceEntry where
  url : String
  category : String
  channel_name : String
deriving DecidableEq

/-- Model of `parse_line`: split on `|`, strip each part; `parts[0]` is the
URL, `parts[1]` (if present and non-empty) the category else `"General"`,
`parts[2]` (if present and non-empty) the name else the URL.  `split`
always yields at least one part, so no line is ever rejected. -/
def parse_line (line : String) : SourceEntry :=
  let parts := (strSplitOn '|' line).map pyStrip
  let url := parts.headD ""
  let category :=
    match parts[1]? with
    | some c => if c = "" then "General" else c
    | none => "General"
  let channel_name :=
    match parts[2]? with
    | some n => if n = "" then url else n
    | none => url
  ⟨url, category, channel_name⟩

/-- Characters matched by `[A-Za-z0-9_-]` in the video-id regex. -/
def ytIdChar (c : Char) : Bool :=
  ('A' ≤ c && c ≤ 'Z') || ('a' ≤ c && c ≤ 'z') || ('0' ≤ c && c ≤ '9') ||
    c = '_' || c = '-'

/-- Left-to-right scan for `re.search(r"(?:v=|youtu\.be/)([A-Za-z0-9_-]{6,})")`:
at each position try the literal `v=`, then `youtu.be/`; a hit needs at
least six id characters after it and captures the maximal run. -/
def ytScan : List Char → Option (List Char)
  | [] => none
  | c :: rest =>
    if ['v', '='].isPrefixOf (c :: rest) then
      let run := ((c :: rest).drop 2).takeWhile ytIdChar
      if 6 ≤ run.length then some run else ytScan rest
    else if ['y', 'o', 'u', 't', 'u', '.', 'b', 'e', '/'].isPrefixOf (c :: rest) then
      let run := ((c :: rest).drop 9).takeWhile ytIdChar
      if 6 ≤ run.length then some run else ytScan rest
    else ytScan rest

/-- Model of `extract_youtube_id`. -/
def extract_youtube_id (url : String) : Option String :=
  (ytScan url.data).map (fun l => (⟨l⟩ : String))

/-! ### Network / subprocess oracles

One HTTP attempt (an iteration of the `for api in candidates` /
`for _ in range(API_RETRIES)` loops) either raises (`exc`) or returns a
parsed JSON document, of which only the fields read by the code are kept.
The attempt lists below are the flattened (instance, retry) sequences in
the order the loops visit them (the `random.shuffle` / last-good-instance
rotation only permutes that order, which stays abstract here).
-/

/-- Outcome of one Piped request: exception, or a JSON document with the
optional `hls` and `dash` fields. -/
inductive ApiOutcome where
  | exc : ApiOutcome
  | resp (hls dash : Option String) : ApiOutcome
deriving DecidableEq

/-- One element of Invidious `adaptiveFormats`: `type` (defaulted to `""`
by `fmt.get("type", "")`) and optional `url`. -/
structure AdaptiveFormat where
  type_ : String
  url : Option String
deriving DecidableEq

/-- Outcome of one Invidious request: exception, or a JSON document with
optional `hlsUrl`, `dashUrl` and an `adaptiveFormats` list. -/
inductive InvOutcome where
  | exc : InvOutcome
  | resp (hlsUrl dashUrl : Option String) (adaptiveFormats : List AdaptiveFormat) : InvOutcome
deriving DecidableEq

/-- Outcome of the `subprocess.run` call in `get_stream_with_ytdlp`:
exception (includes timeout), or a completed process with a return code
and captured stdout. -/
inductive YtdlpOutcome where
  | exc : YtdlpOutcome
  | run (returncode : Int) (stdout : String) : YtdlpOutcome
deriving DecidableEq

/-- ASCII lower-casing of a whole string (model of `str.lower()`). -/
def pyLowerStr (s : String) : String := ⟨s.data.map lowerChar⟩

/-- Model of `get_stream_from_piped`'s loop body over the flattened attempt
sequence: an exception moves on; a response returns `hls` if truthy, else
`dash` if truthy, else moves on to the next retry/instance. -/
def get_stream_from_piped : List ApiOutcome → Option String
  | [] => none
  | ApiOutcome.exc :: rest => get_stream_from_piped rest
  | ApiOutcome.resp hls dash :: rest =>
    if pyTruthy hls then hls
    else if pyTruthy dash then dash
    else get_stream_from_piped rest

/-- The `adaptiveFormats` scan: first format whose lower-cased `type`
contains `application/x-mpegurl` and whose `url` is truthy. -/
def findAdaptive (l : List AdaptiveFormat) : Option String :=
  match l.find? (fun f =>
    containsSub (pyLowerStr f.type_) "application/x-mpegurl" && pyTruthy f.url) with
  | some f => f.url
  | none => none

/-- Model of `get_stream_from_invidious`'s loop body: exception moves on;
a response returns `hlsUrl` if truthy, else `dashUrl` if truthy, else the
first suitable adaptive format, else moves on. -/
def get_stream_from_invidious : List InvOutcome → Option String
  | [] => none
  | InvOutcome.exc :: rest => get_stream_from_invidious rest
  | InvOutcome.resp hls dash ad :: rest =>
    if pyTruthy hls then hls
    else if pyTruthy dash then dash
    else
      match findAdaptive ad with
      | some u => some u
      | none => get_stream_from_invidious rest

/-- Last element of `s.splitlines()` (newline-separated model). -/
def lastLine (s : String) : String := (strSplitOn '\n' s).getLastD s

/-- Model of `get_stream_with_ytdlp`: on a clean exit with non-blank
stdout, the last line of the stripped stdout; otherwise `None`. -/
def get_stream_with_ytdlp : YtdlpOutcome → Option String
  | YtdlpOutcome.exc => none
  | YtdlpOutcome.run rc out =>
    if rc = 0 ∧ pyStrip out ≠ "" then some (lastLine (pyStrip out)) else none

/-- Everything one call of `resolve_stream` observes from the outside
world: the flattened Piped and Invidious attempt outcomes, whether
`check_yt_dlp_installed()` succeeds, and the yt-dlp invocation outcome. -/
structure LineEnv where
  pipedAttempts : List ApiOutcome
  invidiousAttempts : List InvOutcome
  ytdlpInstalled : Bool
  ytdlpOutcome : YtdlpOutcome
deriving DecidableEq

/-- Step 1 of `resolve_stream`: for YouTube URLs with an extractable video
id, Piped first, then (when the Piped result is falsy) Invidious. -/
def youtube_stream (e : LineEnv) (url : String) : Option String :=
  if containsSub url "youtube.com" || containsSub url "youtu.be" then
    match extract_youtube_id url with
    | some _ =>
      let p := get_stream_from_piped e.pipedAttempts
      if pyTruthy p then p else get_stream_from_invidious e.invidiousAttempts
    | none => none
  else none

/-- Steps 1–2 of `resolve_stream`: the YouTube chain, then (when falsy and
yt-dlp is installed) the yt-dlp result. -/
def attempted_stream (e : LineEnv) (url : String) : Option String :=
  let s1 := youtube_stream e url
  if pyTruthy s1 = false ∧ e.ytdlpInstalled then get_stream_with_ytdlp e.ytdlpOutcome
  else s1

/-- Step 3 of `resolve_stream`: a falsy result is replaced by
`FALLBACK_URL` (the `if not stream_url` check). -/
def resolve_url (e : LineEnv) (url : String) : String :=
  match attempted_stream e url with
  | some s => if s = "" then FALLBACK_URL else s
  | none => FALLBACK_URL

/-- The media-URL half of the string `resolve_stream` returns. -/
def resolve_stream_url (e : LineEnv) (line : String) : String :=
  resolve_url e (parse_line line).url

/-- The `#EXTINF` metadata line built by `resolve_stream`. -/
def extinf_line (line : String) : String :=
  "#EXTINF:-1 tvg-id=\"" ++ normalize_id (parse_line line).channel_name ++
    "\" group-title=\"" ++ (parse_line line).category ++ "\"," ++
    (parse_line line).channel_name

/-- Model of `resolve_stream`: the fully formatted two-line playlist
fragment `f'#EXTINF:-1 tvg-id="{tvg_id}" group-title="{category}",{channel_name}\n{stream_url}\n'`. -/
def resolve_stream (e : LineEnv) (line : String) : String :=
  extinf_line line ++ "\n" ++ resolve_stream_url e line ++ "\n"

/-! ### File-level flow (`generate_m3u` and the `__main__` block) -/

/-- The line list `generate_m3u` reads:
`[ln.strip() for ln in f if ln.strip()]`, with file iteration modelled as
splitting the content on newlines. -/
def readLines (content : String) : List String :=
  ((strSplitOn '\n' content).map pyStrip).filter (fun l => l ≠ "")

/-- The `#EXTM3U` header line with the `url-tvg` attribute
(`",".join(EPG_URLS)`). -/
def m3u_header : String :=
  "#EXTM3U url-tvg=\"" ++ String.intercalate "," EPG_URLS ++ "\""

/-- The entry bodies written by the `as_completed` loop, in the given
completion order (each `resolve_stream` result is truthy, hence written). -/
def m3u_entries (e : String → LineEnv) : List String → String
  | [] => ""
  | l :: rest => resolve_stream (e l) l ++ m3u_entries e rest

/-- Full text written to the output file: header line, then the entries. -/
def m3u_text (e : String → LineEnv) (order : List String) : String :=
  m3u_header ++ "\n" ++ m3u_entries e order

/-- Model of `generate_m3u`: returns the content written to the output
file (`none` when nothing is written) and the error message printed, if
any.  The worker pool's completion order is modelled as submission order;
C5 below covers arbitrary orders. -/
def generate_m3u (inputExists : Bool) (content : String) (e : String → LineEnv) :
    Option String × Option String :=
  if inputExists = false then (none, some "[ERROR] No se encontró el archivo: links.txt")
  else
    let lines := readLines content
    if lines = [] then (none, some "[ERROR] El archivo links.txt está vacío.")
    else (some (m3u_text e lines), none)

/-- Observable outcome of one run of the script. -/
structure MainResult where
  exitCode : Nat
  output : Option String
  errMsg : Option String
deriving DecidableEq

/-- Model of the `__main__` block: a missing input file exits with status
1 after printing an error; otherwise `generate_m3u` runs and the process
ends with status 0. -/
def pymain (inputExists : Bool) (content : String) (e : String → LineEnv) : MainResult :=
  if inputExists then
    match generate_m3u inputExists content e with
    | (out, err) => ⟨0, out, err⟩
  else ⟨1, none, some "[ERROR] No se encontró links.txt"⟩

/-! ### Name Reconciler (spec section 4.2)

The repository variant under `src/` contains no EPG reconciliation code,
so this component is modelled from the specification's algorithm
description (exact-id tier, shared-token tier, fuzzy-similarity tier with
first-encountered tie-breaking, else the original title unchanged).
-/

/-- Modelled from the spec: a `GuideChannel` parsed from a guide document
(`id`, `canonicalName`, optional `logoUrl`); the source under `src/` has
no guide loader. -/
structure GuideChannel where
  id : String
  canonicalName : String
  logoUrl : Option String
deriving DecidableEq

/-- Modelled from the spec: result of `reconcile` — a display name, an
optional guide id and an optional logo URL. -/
structure ReconcileResult where
  displayName : String
  guideId : Option String
  logoUrl : Option String
deriving DecidableEq

/-- Modelled from the spec: the fixed stopword list of broadcast-quality
markers and resolution tags removed during normalization. -/
def stopwords : List String :=
  ["hd", "sd", "fhd", "uhd", "4k", "8k", "1080p", "720p", "480p", "360p",
   "live", "en", "vivo", "directo", "tv", "plus", "official"]

/-- Modelled from the spec: strip the common Spanish diacritics. -/
def stripDiacritic (c : Char) : Char :=
  if c = 'á' ∨ c = 'Á' then 'a'
  else if c = 'é' ∨ c = 'É' then 'e'
  else if c = 'í' ∨ c = 'Í' then 'i'
  else if c = 'ó' ∨ c = 'Ó' then 'o'
  else if c = 'ú' ∨ c = 'Ú' ∨ c = 'ü' ∨ c = 'Ü' then 'u'
  else if c = 'ñ' ∨ c = 'Ñ' then 'n'
  else c

/-- ASCII letters and digits after lower-casing. -/
def isAlnumAscii (c : Char) : Bool :=
  ('a' ≤ c && c ≤ 'z') || ('0' ≤ c && c ≤ '9')

/-- Modelled from the spec: normalization tokens — lower-case, strip
diacritics, collapse non-alphanumeric runs to separators, drop stopwords. -/
def specTokens (s : String) : List String :=
  let cleaned := (s.data.map (fun c => stripDiacritic (lowerChar c))).map
    (fun c => if isAlnumAscii c then c else ' ')
  (((splitOnChar ' ' cleaned).filter (fun t => t ≠ [])).map
    (fun l => (⟨l⟩ : String))).filter (fun t => t ∉ stopwords)

/-- Modelled from the spec: the normalized form of a title (tokens joined
by single spaces). -/
def normalizeSpec (s : String) : String := String.intercalate " " (specTokens s)

/-- Modelled from the spec: tier 1, exact key match of the title (or its
normalized form) against a guide id. -/
def tier1Match (title : String) (c : GuideChannel) : Bool :=
  title == c.id || normalizeSpec title == c.id

/-- Modelled from the spec: tier 2, at least one significant token shared
between the normalized title and the candidate's normalized id. -/
def tier2Match (title : String) (c : GuideChannel) : Bool :=
  (specTokens title).any (fun t => t ∈ specTokens c.id)

/-- Size of the multiset intersection of two token lists. -/
def countCommon : List String → List String → Nat
  | [], _ => 0
  | t :: rest, b =>
    if t ∈ b then 1 + countCommon rest (b.erase t) else countCommon rest b

/-- Modelled from the spec: a token-order-insensitive similarity score on
the 0–100 scale (Sørensen–Dice over token multisets). -/
def diceScore (a b : List String) : Nat :=
  if a.length + b.length = 0 then 100
  else (200 * countCommon a b) / (a.length + b.length)

/-- Modelled from the spec: similarity between the normalized extracted
title and a candidate's canonical name. -/
def similarity (title : String) (c : GuideChannel) : Nat :=
  diceScore (specTokens title) (specTokens c.canonicalName)

/-- Modelled from the spec: the single highest-scoring candidate, ties
broken by first-encountered position in guide-load order. -/
def bestCandidate (title : String) : List GuideChannel → Option (GuideChannel × Nat)
  | [] => none
  | c :: rest =>
    let s := similarity title c
    match bestCandidate title rest with
    | none => some (c, s)
    | some (c2, s2) => if s < s2 then some (c2, s2) else some (c, s)

/-- Modelled from the spec: `reconcile` — exact tier, then shared-token
tier, then fuzzy tier gated by the threshold, else the original title
with null guide id and null logo (a normal return value). -/
def reconcile (threshold : Nat) (idx : List GuideChannel) (title : String) :
    ReconcileResult :=
  match idx.find? (fun c => tier1Match title c) with
  | some c => ⟨c.canonicalName, some c.id, c.logoUrl⟩
  | none =>
    match idx.find? (fun c => tier2Match title c) with
    | some c => ⟨c.canonicalName, some c.id, c.logoUrl⟩
    | none =>
      match bestCandidate title idx with
      | some (c, s) =>
        if threshold ≤ s then ⟨c.canonicalName, some c.id, c.logoUrl⟩
        else ⟨title, none, none⟩
      | none => ⟨title, none, none⟩

/-- Builder for test contents: raw input lines joined by newlines (the
inverse of the file iteration `generate_m3u` performs). -/
def joinLinesNl : List String → String
  | [] => ""
  | [a] => a
  | a :: b :: rest => a ++ "\n" ++ joinLinesNl (b :: rest)

/-! ### Helper lemmas about the string primitives -/

theorem splitOnChar_ne_nil (sep : Char) (l : List Char) : splitOnChar sep l ≠ [] := by
  induction l with
  | nil => simp [splitOnChar]
  | cons c rest ih =>
    simp only [splitOnChar]
    split
    · simp
    · split
      · simp
      · simp

theorem mem_splitOnChar {sep : Char} {l : List Char} {p : List Char} {c : Char}
    (hp : p ∈ splitOnChar sep l) (hc : c ∈ p) : c ∈ l ∧ c ≠ sep := by
  induction l generalizing p with
  | nil =>
    simp [splitOnChar] at hp
    subst hp
    simp at hc
  | cons c0 rest ih =>
    simp only [splitOnChar] at hp
    by_cases h0 : c0 = sep
    · simp [h0] at hp
      rcases hp with hp | hp
      · subst hp; simp at hc
      · rcases ih hp hc with ⟨h1, h2⟩
        exact ⟨List.mem_cons_of_mem _ h1, h2⟩
    · simp [h0] at hp
      rcases hrest : splitOnChar sep rest with _ | ⟨h, t⟩
      · exact absurd hrest (splitOnChar_ne_nil sep rest)
      · rw [hrest] at hp
        simp at hp
        rcases hp with hp | hp
        · subst hp
          rcases List.mem_cons.mp hc with hc | hc
          · subst hc; exact ⟨List.mem_cons_self _ _, h0⟩
          · have hh : h ∈ splitOnChar sep rest := by rw [hrest]; exact List.mem_cons_self _ _
            rcases ih hh hc with ⟨h1, h2⟩
            exact ⟨List.mem_cons_of_mem _ h1, h2⟩
        · have hpt : p ∈ splitOnChar sep rest := by rw [hrest]; exact List.mem_cons_of_mem _ hp
          rcases ih hpt hc with ⟨h1, h2⟩
          exact ⟨List.mem_cons_of_mem _ h1, h2⟩

theorem splitOnChar_of_not_mem {sep : Char} {l : List Char} (h : sep ∉ l) :
    splitOnChar sep l = [l] := by
  induction l with
  | nil => simp [splitOnChar]
  | cons c rest ih =>
    have hc : c ≠ sep := fun he => h (he ▸ List.mem_cons_self _ _)
    have hrest : sep ∉ rest := fun hm => h (List.mem_cons_of_mem _ hm)
    simp only [splitOnChar]
    rw [if_neg hc, ih hrest]

theorem splitOnChar_append_cons {sep : Char} {a r : List Char} (h : sep ∉ a) :
    splitOnChar sep (a ++ sep :: r) = a :: splitOnChar sep r := by
  induction a with
  | nil => simp [splitOnChar]
  | cons c a' ih =>
    have hc : c ≠ sep := fun he => h (he ▸ List.mem_cons_self _ _)
    have ha' : sep ∉ a' := fun hm => h (List.mem_cons_of_mem _ hm)
    simp only [List.cons_append, splitOnChar]
    rw [if_neg hc, show a'.append (sep :: r) = a' ++ sep :: r from rfl, ih ha']

/-- Join pieces with a separator (`joinSep sep [a, b] = a ++ sep :: b`). -/
def joinSep (sep : Char) : List (List Char) → List Char
  | [] => []
  | [a] => a
  | a :: b :: rest => a ++ sep :: joinSep sep (b :: rest)

theorem splitOnChar_joinSep {sep : Char} {parts : List (List Char)}
    (hne : parts ≠ []) (h : ∀ p ∈ parts, sep ∉ p) :
    splitOnChar sep (joinSep sep parts) = parts := by
  induction parts with
  | nil => exact absurd rfl hne
  | cons a rest ih =>
    rcases rest with _ | ⟨b, rest'⟩
    · simpa [joinSep] using splitOnChar_of_not_mem (h a (List.mem_cons_self _ _))
    · have ha : sep ∉ a := h a (List.mem_cons_self _ _)
      have hr : ∀ p ∈ b :: rest', sep ∉ p := fun p hp => h p (List.mem_cons_of_mem _ hp)
      simp only [joinSep]
      rw [splitOnChar_append_cons ha, ih (by simp) hr]

theorem mem_stripData {l : List Char} {c : Char} (h : c ∈ stripData l) : c ∈ l := by
  unfold stripData at h
  rw [List.mem_reverse] at h
  have h1 := (List.dropWhile_sublist (l := (l.dropWhile pySpace).reverse) pySpace).mem h
  rw [List.mem_reverse] at h1
  exact (List.dropWhile_sublist pySpace).mem h1

theorem stripData_eq_nil {l : List Char} (h : ∀ c ∈ l, pySpace c = true) :
    stripData l = [] := by
  unfold stripData
  have h1 : l.dropWhile pySpace = [] := List.dropWhile_eq_nil_iff.mpr h
  rw [h1]
  simp

theorem lowerChar_of_isIdChar {c : Char} (h : isIdChar c = true) : lowerChar c = c := by
  unfold lowerChar
  rw [if_neg]
  unfold isIdChar at h
  simp only [Bool.or_eq_true, Bool.and_eq_true, decide_eq_true_eq] at h
  rintro ⟨hA, hZ⟩
  rcases h with ⟨h1, _⟩ | ⟨_, h2⟩
  · exact absurd (le_trans h1 hZ) (by decide)
  · exact absurd (le_trans hA h2) (by decide)

theorem isIdChar_of_mem_normalize_id {s : String} {c : Char}
    (h : c ∈ (normalize_id s).data) : isIdChar c = true := by
  unfold normalize_id at h
  exact List.of_mem_filter h

theorem mem_strSplitOn_chars {sep : Char} {s p : String}
    (hp : p ∈ strSplitOn sep s) {c : Char} (hc : c ∈ p.data) : c ∈ s.data := by
  unfold strSplitOn at hp
  rcases List.mem_map.mp hp with ⟨pl, hpl, rfl⟩
  exact (mem_splitOnChar hpl hc).1

theorem parse_parts_chars {line q : String}
    (hq : q ∈ (strSplitOn '|' line).map pyStrip) {c : Char} (hc : c ∈ q.data) :
    c ∈ line.data := by
  rcases List.mem_map.mp hq with ⟨p, hp, rfl⟩
  exact mem_strSplitOn_chars hp (mem_stripData hc)

theorem parse_line_url_chars (line : String) {c : Char}
    (hc : c ∈ (parse_line line).url.data) : c ∈ line.data := by
  have hne : (strSplitOn '|' line).map pyStrip ≠ [] := by
    unfold strSplitOn
    simp only [ne_eq, List.map_eq_nil_iff]
    exact splitOnChar_ne_nil '|' line.data
  rcases hps : (strSplitOn '|' line).map pyStrip with _ | ⟨q, rest⟩
  · exact absurd hps hne
  · have hurl : (parse_line line).url = q := by unfold parse_line; rw [hps]; rfl
    rw [hurl] at hc
    exact parse_parts_chars (hps ▸ List.mem_cons_self q rest) hc

theorem parse_line_category_chars (line : String) :
    (parse_line line).category = "General" ∨
      ∀ c ∈ (parse_line line).category.data, c ∈ line.data := by
  unfold parse_line
  rcases h1 : ((strSplitOn '|' line).map pyStrip)[1]? with _ | q
  · left; simp [h1]
  · by_cases hq : q = ""
    · left; simp [h1, hq]
    · right
      intro c hc
      refine parse_parts_chars (List.getElem?_mem h1) ?_
      simpa [h1, hq] using hc

theorem parse_line_name_chars (line : String) :
    (parse_line line).channel_name = (parse_line line).url ∨
      ∀ c ∈ (parse_line line).channel_name.data, c ∈ line.data := by
  unfold parse_line
  rcases h2 : ((strSplitOn '|' line).map pyStrip)[2]? with _ | n
  · left; simp [h2]
  · by_cases hn : n = ""
    · left; simp [h2, hn]
    · right
      intro c hc
      refine parse_parts_chars (List.getElem?_mem h2) ?_
      simpa [h2, hn] using hc

theorem extinf_line_no_newline {line : String} (h : '\n' ∉ line.data) :
    '\n' ∉ (extinf_line line).data := by
  unfold extinf_line
  simp only [String.data_append, List.mem_append]
  push_neg
  refine ⟨⟨⟨⟨⟨by decide, ?_⟩, by decide⟩, ?_⟩, by decide⟩, ?_⟩
  · intro hmem
    have := isIdChar_of_mem_normalize_id hmem
    simp [isIdChar] at this
  · rcases parse_line_category_chars line with hcat | hcat
    · rw [hcat]; decide
    · intro hmem; exact h (hcat _ hmem)
  · rcases parse_line_name_chars line with hname | hname
    · rw [hname]; intro hmem; exact h (parse_line_url_chars line hmem)
    · intro hmem; exact h (hname _ hmem)

theorem joinSep_cons {sep : Char} {a : List Char} {L : List (List Char)} (h : L ≠ []) :
    joinSep sep (a :: L) = a ++ sep :: joinSep sep L := by
  cases L with
  | nil => exact absurd rfl h
  | cons b t => rfl

theorem m3u_entries_data (e : String → LineEnv) (order : List String) :
    (m3u_entries e order).data =
      joinSep '\n'
        ((order.flatMap fun l => [(extinf_line l).data, (resolve_stream_url (e l) l).data]) ++ [[]]) := by
  induction order with
  | nil => rfl
  | cons l rest ih =>
    have h1 : ((rest.flatMap fun l => [(extinf_line l).data, (resolve_stream_url (e l) l).data]) ++ [[]]) ≠ [] := by
      simp
    simp only [m3u_entries, List.flatMap_cons, List.cons_append, List.append_assoc, List.nil_append]
    rw [joinSep_cons (by simp), joinSep_cons h1]
    simp only [String.data_append, ih]
    simp [resolve_stream, String.data_append]

theorem m3u_text_data (e : String → LineEnv) (order : List String) :
    (m3u_text e order).data =
      joinSep '\n'
        (m3u_header.data ::
          ((order.flatMap fun l => [(extinf_line l).data, (resolve_stream_url (e l) l).data]) ++ [[]])) := by
  rw [joinSep_cons (by simp)]
  simp only [m3u_text, String.data_append, m3u_entries_data]
  rfl

/-- Unfolding equation for `attempted_stream`. -/
theorem attempted_stream_eq (e : LineEnv) (url : String) :
    attempted_stream e url =
      if pyTruthy (youtube_stream e url) = false ∧ e.ytdlpInstalled then
        get_stream_with_ytdlp e.ytdlpOutcome
      else youtube_stream e url := rfl

/-! ### Claim theorems -/

/-- C1: every playlist entry's media-URL line is non-empty — it is either
a genuinely resolved stream URL (a non-blank result of some resolution
strategy) or, when every strategy fails (a falsy chain result), exactly
the configured `FALLBACK_URL`; never an empty or null target. -/
theorem extractor_c1 (e : LineEnv) (line : String) :
    resolve_stream_url e line ≠ "" ∧
    (pyTruthy (attempted_stream e (parse_line line).url) = false →
      resolve_stream_url e line = FALLBACK_URL) ∧
    (∀ s, attempted_stream e (parse_line line).url = some s → s ≠ "" →
      resolve_stream_url e line = s) := by
  have hF : FALLBACK_URL ≠ "" := by decide
  unfold resolve_stream_url resolve_url
  rcases h : attempted_stream e (parse_line line).url with _ | s
  · exact ⟨hF, fun _ => rfl, fun s hs => by cases hs⟩
  · by_cases hs : s = ""
    · subst hs
      exact ⟨by simp [hF], fun _ => by simp, fun t ht hne => by
        cases ht; exact absurd rfl hne⟩
    · refine ⟨by simp [hs], ?_, ?_⟩
      · intro hfalse
        simp [pyTruthy, hs] at hfalse
      · intro t ht hne
        cases ht
        simp [hs]

/-- C1 witness: with no working strategy the media URL is the fallback. -/
theorem extractor_c1_witness :
    resolve_stream_url ⟨[], [], false, YtdlpOutcome.exc⟩ "http://example.com/a" = FALLBACK_URL :=
  (extractor_c1 ⟨[], [], false, YtdlpOutcome.exc⟩ "http://example.com/a").2.1 (by decide)

/-- C2: resolution strategies run in the fixed order Piped, Invidious
(both only for YouTube URLs with an extractable video id), yt-dlp,
fallback; the first truthy result wins, and a failed attempt (exception
or null/falsy result) — both across strategies and across the per-instance
attempts inside the Piped/Invidious loops — never prevents the later
attempts from being tried. -/
theorem extractor_c2 (e : LineEnv) (url : String)
    (hyt : (containsSub url "youtube.com" || containsSub url "youtu.be") = true)
    (hv : ∃ v, extract_youtube_id url = some v) :
    (pyTruthy (get_stream_from_piped e.pipedAttempts) = true →
      attempted_stream e url = get_stream_from_piped e.pipedAttempts) ∧
    (pyTruthy (get_stream_from_piped e.pipedAttempts) = false →
      pyTruthy (get_stream_from_invidious e.invidiousAttempts) = true →
      attempted_stream e url = get_stream_from_invidious e.invidiousAttempts) ∧
    (pyTruthy (get_stream_from_piped e.pipedAttempts) = false →
      pyTruthy (get_stream_from_invidious e.invidiousAttempts) = false →
      e.ytdlpInstalled = true →
      attempted_stream e url = get_stream_with_ytdlp e.ytdlpOutcome) ∧
    (pyTruthy (attempted_stream e url) = false → resolve_url e url = FALLBACK_URL) ∧
    (∀ r, get_stream_from_piped (ApiOutcome.exc :: r) = get_stream_from_piped r) ∧
    (∀ hls dash r, pyTruthy hls = false → pyTruthy dash = false →
      get_stream_from_piped (ApiOutcome.resp hls dash :: r) = get_stream_from_piped r) ∧
    (∀ r, get_stream_from_invidious (InvOutcome.exc :: r) = get_stream_from_invidious r) := by
  obtain ⟨v, hv⟩ := hv
  have hys : youtube_stream e url =
      (if pyTruthy (get_stream_from_piped e.pipedAttempts) then
        get_stream_from_piped e.pipedAttempts
      else get_stream_from_invidious e.invidiousAttempts) := by
    unfold youtube_stream
    rw [hyt, hv]
    simp
  refine ⟨?_, ?_, ?_, ?_, fun r => rfl, ?_, fun r => rfl⟩
  · intro hp
    rw [attempted_stream_eq, hys]
    simp [hp]
  · intro hp hi
    rw [attempted_stream_eq, hys]
    simp [hp, hi]
  · intro hp hi hins
    rw [attempted_stream_eq, hys]
    simp [hp, hi, hins]
  · intro hfalse
    unfold resolve_url
    rcases h : attempted_stream e url with _ | s
    · rfl
    · rw [h] at hfalse
      simp [pyTruthy] at hfalse
      simp [hfalse]
  · intro hls dash r h1 h2
    simp [get_stream_from_piped, h1, h2]

/-- C2 witness: a truthy Piped result wins for a YouTube URL. -/
theorem extractor_c2_witness :
    attempted_stream ⟨[ApiOutcome.resp (some "http://hls") none], [], false, YtdlpOutcome.exc⟩
        "https://youtu.be/abcdef" =
      get_stream_from_piped [ApiOutcome.resp (some "http://hls") none] :=
  (extractor_c2 ⟨[ApiOutcome.resp (some "http://hls") none], [], false, YtdlpOutcome.exc⟩
    "https://youtu.be/abcdef" (by decide) ⟨"abcdef", by decide⟩).1 (by decide)

/-- C3: parsing `URL | Category | Name` defaults a missing or empty
category field to `"General"` and a missing or empty display-name field
to the URL; present non-empty fields are kept, the first field is always
the URL, and (being a total function) no line is ever rejected. -/
theorem extractor_c3 (line : String) :
    ((((strSplitOn '|' line).map pyStrip)[1]? = none ∨
        ((strSplitOn '|' line).map pyStrip)[1]? = some "") →
      (parse_line line).category = "General") ∧
    (∀ c, ((strSplitOn '|' line).map pyStrip)[1]? = some c → c ≠ "" →
      (parse_line line).category = c) ∧
    ((((strSplitOn '|' line).map pyStrip)[2]? = none ∨
        ((strSplitOn '|' line).map pyStrip)[2]? = some "") →
      (parse_line line).channel_name = (parse_line line).url) ∧
    (∀ n, ((strSplitOn '|' line).map pyStrip)[2]? = some n → n ≠ "" →
      (parse_line line).channel_name = n) ∧
    (parse_line line).url = ((strSplitOn '|' line).map pyStrip).headD "" := by
  refine ⟨?_, ?_, ?_, ?_, rfl⟩
  · rintro (h | h) <;> simp [parse_line, h]
  · intro c h hc
    simp [parse_line, h, hc]
  · rintro (h | h) <;> simp [parse_line, h]
  · intro n h hn
    simp [parse_line, h, hn]

/-- C3 witness: a line with empty category and name fields gets the
defaults (`"General"`, the URL itself). -/
theorem extractor_c3_witness :
    (parse_line "http://a ||").category = "General" ∧
      (parse_line "http://a ||").channel_name = (parse_line "http://a ||").url :=
  ⟨(extractor_c3 "http://a ||").1 (Or.inr (by decide)),
    (extractor_c3 "http://a ||").2.2.1 (Or.inr (by decide))⟩

/-- C4: `normalize_id` is idempotent: applying it to an already-normalized
string returns the string unchanged. -/
theorem extractor_c4 (s : String) : normalize_id (normalize_id s) = normalize_id s := by
  unfold normalize_id
  have h1 : ((s.data.map lowerChar).filter isIdChar).map lowerChar =
      (s.data.map lowerChar).filter isIdChar := by
    rw [List.map_congr_left fun c hc => lowerChar_of_isIdChar (List.of_mem_filter hc)]
    exact List.map_id' _
  rw [show (String.mk ((s.data.map lowerChar).filter isIdChar)).data =
      (s.data.map lowerChar).filter isIdChar from rfl, h1,
    List.filter_eq_self.mpr fun a ha => List.of_mem_filter ha]

/-- C5: the generated playlist's first line is `#EXTM3U` with a `url-tvg`
attribute holding the comma-joined configured guide URLs, and every entry
occupies exactly two lines: the `#EXTINF:-1` metadata line (tvg-id,
group-title, display name), then the resolved media URL. -/
theorem extractor_c5 (e : String → LineEnv) (order : List String)
    (h1 : ∀ l ∈ order, '\n' ∉ l.data)
    (h2 : ∀ l ∈ order, '\n' ∉ (resolve_stream_url (e l) l).data) :
    m3u_header = "#EXTM3U url-tvg=\"https://iptv-org.github.io/epg/guides/es.xml\"" ∧
    splitOnChar '\n' (m3u_text e order).data =
      m3u_header.data ::
        ((order.flatMap fun l =>
          [(extinf_line l).data, (resolve_stream_url (e l) l).data]) ++ [[]]) := by
  refine ⟨by decide, ?_⟩
  rw [m3u_text_data]
  apply splitOnChar_joinSep (by simp)
  intro p hp
  rcases List.mem_cons.mp hp with rfl | hp
  · decide
  · rcases List.mem_append.mp hp with hp | hp
    · rcases List.mem_flatMap.mp hp with ⟨l, hl, hpl⟩
      rcases List.mem_cons.mp hpl with rfl | hpl
      · exact extinf_line_no_newline (h1 l hl)
      · rcases List.mem_cons.mp hpl with rfl | hpl
        · exact h2 l hl
        · simp at hpl
    · simp only [List.mem_singleton] at hp
      subst hp
      simp

/-- C5 witness: a one-entry playlist splits into the header line, the
`#EXTINF` line, the media-URL line, and the trailing empty piece. -/
theorem extractor_c5_witness :
    splitOnChar '\n'
        (m3u_text (fun _ => ⟨[], [], false, YtdlpOutcome.exc⟩)
          ["http://a | News | Alpha"]).data =
      m3u_header.data ::
        ((["http://a | News | Alpha"].flatMap fun l =>
          [(extinf_line l).data,
            (resolve_stream_url ((fun _ => (⟨[], [], false, YtdlpOutcome.exc⟩ : LineEnv)) l) l).data]) ++
          [[]]) :=
  (extractor_c5 (fun _ => ⟨[], [], false, YtdlpOutcome.exc⟩) ["http://a | News | Alpha"]
    (by decide) (by decide)).2

theorem joinLinesNl_data (parts : List String) :
    (joinLinesNl parts).data = joinSep '\n' (parts.map String.data) := by
  induction parts with
  | nil => rfl
  | cons a rest ih =>
    cases rest with
    | nil => rfl
    | cons b t =>
      simp only [joinLinesNl, List.map_cons]
      rw [joinSep_cons (by simp), ← List.map_cons]
      rw [← ih]
      simp [String.data_append]

theorem readLines_joinLinesNl (parts : List String) (h : ∀ l ∈ parts, '\n' ∉ l.data) :
    readLines (joinLinesNl parts) = (parts.map pyStrip).filter (fun l => l ≠ "") := by
  cases parts with
  | nil => rfl
  | cons a rest =>
    unfold readLines strSplitOn
    rw [joinLinesNl_data, splitOnChar_joinSep (by simp) ?_]
    · rw [List.map_map, List.map_map]
      congr 1
    · intro p hp
      rcases List.mem_map.mp hp with ⟨l, hl, rfl⟩
      exact h l hl

theorem generate_m3u_congr (c1 c2 : String) (e : String → LineEnv)
    (h : readLines c1 = readLines c2) :
    generate_m3u true c1 e = generate_m3u true c2 e := by
  unfold generate_m3u
  rw [h]

/-- C6: a blank (whitespace-only) input line is ignored — it yields no
playlist entry and leaves the line list, hence the generated output, of
the remaining lines unchanged. -/
theorem extractor_c6 (e : String → LineEnv) (pre post : List String) (b : String)
    (hl : ∀ l ∈ pre ++ post, '\n' ∉ l.data)
    (hb1 : ∀ c ∈ b.data, pySpace c = true)
    (hb2 : '\n' ∉ b.data) :
    readLines (joinLinesNl (pre ++ b :: post)) = readLines (joinLinesNl (pre ++ post)) ∧
    generate_m3u true (joinLinesNl (pre ++ b :: post)) e =
      generate_m3u true (joinLinesNl (pre ++ post)) e := by
  have hall : ∀ l ∈ pre ++ b :: post, '\n' ∉ l.data := by
    intro l hl'
    rcases List.mem_append.mp hl' with h | h
    · exact hl l (List.mem_append.mpr (Or.inl h))
    · rcases List.mem_cons.mp h with rfl | h
      · exact hb2
      · exact hl l (List.mem_append.mpr (Or.inr h))
  have hstrip : pyStrip b = "" := by
    unfold pyStrip
    rw [stripData_eq_nil hb1]
  have h1 : readLines (joinLinesNl (pre ++ b :: post)) =
      readLines (joinLinesNl (pre ++ post)) := by
    rw [readLines_joinLinesNl _ hall, readLines_joinLinesNl _ hl]
    simp [List.filter_append, hstrip]
  exact ⟨h1, generate_m3u_congr _ _ e h1⟩

/-- C6 witness: inserting a whitespace-only line between two entries
changes neither the parsed line list nor the generated output. -/
theorem extractor_c6_witness :
    readLines (joinLinesNl ["http://a", "  ", "http://b"]) =
      readLines (joinLinesNl ["http://a", "http://b"]) :=
  (extractor_c6 (fun _ => ⟨[], [], false, YtdlpOutcome.exc⟩) ["http://a"] ["http://b"] "  "
    (by decide) (by decide) (by decide)).1

/-- C7: a missing input file is the only fatal condition — the run then
prints an error and exits with status 1; with the file present the run
always exits with status 0, whatever the contents and whatever the
network/yt-dlp outcomes (all other failures are absorbed). -/
theorem extractor_c7 (content : String) (e : String → LineEnv) :
    pymain false content e = ⟨1, none, some "[ERROR] No se encontró links.txt"⟩ ∧
    (pymain true content e).exitCode = 0 := by
  constructor
  · rfl
  · unfold pymain
    rcases h : generate_m3u true content e with ⟨out, err⟩
    simp [h]

theorem bestCandidate_spec {title : String} {idx : List GuideChannel}
    {c : GuideChannel} {s : Nat} (h : bestCandidate title idx = some (c, s)) :
    c ∈ idx ∧ s = similarity title c := by
  induction idx generalizing c s with
  | nil => cases h
  | cons a rest ih =>
    simp only [bestCandidate] at h
    rcases hb : bestCandidate title rest with _ | ⟨c2, s2⟩
    · rw [hb] at h
      cases h
      exact ⟨List.mem_cons_self _ _, rfl⟩
    · rw [hb] at h
      change (if similarity title a < s2 then some (c2, s2)
        else some (a, similarity title a)) = some (c, s) at h
      by_cases hlt : similarity title a < s2
      · rw [if_pos hlt] at h
        cases h
        rcases ih hb with ⟨hmem, hs⟩
        exact ⟨List.mem_cons_of_mem _ hmem, hs⟩
      · rw [if_neg hlt] at h
        cases h
        exact ⟨List.mem_cons_self _ _, rfl⟩

/-- C8 counterexample: a title whose fuzzy similarity to every candidate
canonical name is below the threshold can still be rewritten by the
earlier shared-token tier, so `reconcile` does not return the original
title with null guide id. -/
theorem extractor_c8_counterexample :
    (∀ c ∈ [GuideChannel.mk "espn" "espn" none],
      similarity "ESPN Deportes Extra Premium Gold Package Today" c < 80) ∧
    reconcile 80 [GuideChannel.mk "espn" "espn" none]
        "ESPN Deportes Extra Premium Gold Package Today" ≠
      ⟨"ESPN Deportes Extra Premium Gold Package Today", none, none⟩ := by
  decide

/-- C8 (amended): for every extracted title that fires neither the
exact-id tier nor the shared-token tier and whose similarity to every
candidate is strictly below the configured threshold, `reconcile` returns
the original title unchanged with null guide id and null logo, as a
normal (non-error) return value. -/
theorem extractor_c8_amended (thr : Nat) (idx : List GuideChannel) (title : String)
    (h1 : ∀ c ∈ idx, tier1Match title c = false)
    (h2 : ∀ c ∈ idx, tier2Match title c = false)
    (h3 : ∀ c ∈ idx, similarity title c < thr) :
    reconcile thr idx title = ⟨title, none, none⟩ := by
  unfold reconcile
  have f1 : idx.find? (fun c => tier1Match title c) = none :=
    List.find?_eq_none.mpr fun c hc => by simp [h1 c hc]
  have f2 : idx.find? (fun c => tier2Match title c) = none :=
    List.find?_eq_none.mpr fun c hc => by simp [h2 c hc]
  rw [f1, f2]
  rcases hb : bestCandidate title idx with _ | ⟨c, s⟩
  · rfl
  · rcases bestCandidate_spec hb with ⟨hmem, rfl⟩
    show (if thr ≤ similarity title c then
        (⟨c.canonicalName, some c.id, c.logoUrl⟩ : ReconcileResult)
      else ⟨title, none, none⟩) = ⟨title, none, none⟩
    rw [if_neg (Nat.not_le.mpr (h3 c hmem))]

/-- C8 witness: a title with no exact, token or fuzzy match comes back
unchanged with null guide id and logo. -/
theorem extractor_c8_amended_witness :
    reconcile 80 [GuideChannel.mk "espn.ar" "ESPN" none] "Random Local Channel 7" =
      ⟨"Random Local Channel 7", none, none⟩ :=
  extractor_c8_amended 80 [GuideChannel.mk "espn.ar" "ESPN" none] "Random Local Channel 7"
    (by decide) (by decide) (by decide)

/-- C9: the `tvg-id` attribute written for an entry is exactly
`normalize_id` of the entry's display name (so it is independent of the
resolution environment and of any guide data, which this variant never
loads), and it consists only of lowercase ASCII letters and digits
(possibly empty). -/
theorem extractor_c9 (e : LineEnv) (line : String) :
    resolve_stream e line =
      "#EXTINF:-1 tvg-id=\"" ++ normalize_id (parse_line line).channel_name ++
        "\" group-title=\"" ++ (parse_line line).category ++ "\"," ++
        (parse_line line).channel_name ++ "\n" ++ resolve_stream_url e line ++ "\n" ∧
    ∀ c ∈ (normalize_id (parse_line line).channel_name).data, isIdChar c = true :=
  ⟨rfl, fun _ hc => isIdChar_of_mem_normalize_id hc⟩

theorem readLines_all_space {content : String}
    (h : ∀ c ∈ content.data, pySpace c = true) : readLines content = [] := by
  unfold readLines
  rw [List.filter_eq_nil_iff]
  intro a ha
  rcases List.mem_map.mp ha with ⟨p, hp, rfl⟩
  rcases List.mem_map.mp hp with ⟨pl, hpl, rfl⟩
  have : pyStrip ⟨pl⟩ = "" := by
    unfold pyStrip
    rw [stripData_eq_nil fun c hc => h c (mem_splitOnChar hpl hc).1]
  simp [strSplitOn, this]

/-- C10: when the input file exists but holds only whitespace, the run
prints the empty-file error, writes no output (the model reports no
written content, leaving any existing file untouched), and exits with
status 0. -/
theorem extractor_c10 (content : String) (e : String → LineEnv)
    (h : ∀ c ∈ content.data, pySpace c = true) :
    pymain true content e =
      ⟨0, none, some "[ERROR] El archivo links.txt está vacío."⟩ := by
  unfold pymain generate_m3u
  rw [readLines_all_space h]
  simp

/-- C10 witness: a file of blanks and newlines yields the empty-file
error, no output and exit status 0. -/
theorem extractor_c10_witness :
    pymain true "  \n \n" (fun _ => ⟨[], [], false, YtdlpOutcome.exc⟩) =
      ⟨0, none, some "[ERROR] El archivo links.txt está vacío."⟩ :=
  extractor_c10 "  \n \n" (fun _ => ⟨[], [], false, YtdlpOutcome.exc⟩) (by decide)
